import Mathlib

/-!
Verification development for the VS Code tunnel service
(`src/vs/platform/remote/common/tunnel.ts`) and the main-thread terminal
bridge (`src/vs/workbench/api/browser/mainThreadTerminalService.ts`).

The TypeScript code is shallowly embedded: JavaScript `Map`s become
association lists with JS-`Map` get/set/delete semantics, promises become
records carrying a promise identity together with their eventual
resolution, and the side effects of the service (fired events, disposed
tunnels, provider invocations) are threaded through an explicit state.
-/

namespace JsMap

/-- Lookup in a JS `Map` modelled as an association list: first matching key. -/
def jget {α β : Type} [DecidableEq α] (m : List (α × β)) (k : α) : Option β :=
  match m with
  | [] => none
  | p :: t => if k = p.1 then some p.2 else jget t k

/-- `Map.set`: replace the value at an existing key in place, otherwise append. -/
def jset {α β : Type} [DecidableEq α] (m : List (α × β)) (k : α) (v : β) : List (α × β) :=
  match m with
  | [] => [(k, v)]
  | p :: t => if p.1 = k then (k, v) :: t else p :: jset t k v

/-- `Map.delete`: remove the entry for a key.  (On the unique-key lists a JS
`Map` actually holds, removing every matching pair is the same as removing the
one matching pair.) -/
def jdelete {α β : Type} [DecidableEq α] (m : List (α × β)) (k : α) : List (α × β) :=
  m.filter (fun p => p.1 ≠ k)

/-- `Map.has`. -/
def jhas {α β : Type} [DecidableEq α] (m : List (α × β)) (k : α) : Bool :=
  (jget m k).isSome

@[simp] theorem jget_nil {α β : Type} [DecidableEq α] (k : α) :
    jget ([] : List (α × β)) k = none := rfl

theorem jget_cons {α β : Type} [DecidableEq α] (k : α) (p : α × β) (t : List (α × β)) :
    jget (p :: t) k = if k = p.1 then some p.2 else jget t k := rfl

@[simp] theorem jget_jset_self {α β : Type} [DecidableEq α] (m : List (α × β)) (k : α) (v : β) :
    jget (jset m k v) k = some v := by
  induction m with
  | nil => simp [jset, jget]
  | cons p t ih =>
    by_cases hp : p.1 = k
    · simp [jset, hp, jget]
    · have hk : ¬k = p.1 := fun h => hp h.symm
      simp [jset, hp, jget_cons, hk, ih]

theorem jget_jset_ne {α β : Type} [DecidableEq α] (m : List (α × β)) {k k' : α} (v : β)
    (h : k' ≠ k) : jget (jset m k v) k' = jget m k' := by
  induction m with
  | nil => simp [jset, jget, h]
  | cons p t ih =>
    by_cases hp : p.1 = k
    · subst hp
      simp [jset, jget_cons, h, if_neg h]
    · simp [jset, hp, jget_cons, ih]

@[simp] theorem jget_jdelete_self {α β : Type} [DecidableEq α] (m : List (α × β)) (k : α) :
    jget (jdelete m k) k = none := by
  induction m with
  | nil => rfl
  | cons p t ih =>
    by_cases hp : p.1 = k
    · simpa [jdelete, hp] using ih
    · have hk : ¬k = p.1 := fun h => hp h.symm
      simpa [jdelete, hp, jget_cons, hk] using ih

theorem jget_jdelete_ne {α β : Type} [DecidableEq α] (m : List (α × β)) {k k' : α}
    (h : k' ≠ k) : jget (jdelete m k) k' = jget m k' := by
  induction m with
  | nil => rfl
  | cons p t ih =>
    by_cases hp : p.1 = k
    · subst hp
      simpa [jdelete, jget_cons, h] using ih
    · by_cases hk' : k' = p.1
      · simp [jdelete, hp, jget_cons, hk']
      · simpa [jdelete, hp, jget_cons, hk'] using ih

/-- `new Map([...first, ...second])`: fold `Map.set` over the listed entries. -/
def jsetAll {α β : Type} [DecidableEq α] (m : List (α × β)) (l : List (α × β)) :
    List (α × β) :=
  l.foldl (fun acc p => jset acc p.1 p.2) m

theorem jhas_jset {α β : Type} [DecidableEq α] (m : List (α × β)) (k a : α) (b : β) :
    jhas (jset m a b) k = (decide (k = a) || jhas m k) := by
  by_cases hk : k = a
  · subst hk; simp [jhas]
  · simp [jhas, hk, jget_jset_ne _ _ hk]

/-- A key is present in the merged map iff it is present in either input map. -/
theorem jhas_jsetAll {α β : Type} [DecidableEq α] (m l : List (α × β)) (k : α) :
    jhas (jsetAll m l) k = (jhas m k || jhas l k) := by
  induction l generalizing m with
  | nil => simp [jsetAll, jhas, jget]
  | cons p t ih =>
    simp only [jsetAll, List.foldl_cons] at *
    rw [ih, jhas_jset]
    by_cases hk : k = p.1
    · subst hk
      simp [jhas, jget_cons]
    · simp [jhas, hk, jget_cons]

end JsMap

namespace Tunnel

open JsMap

/-- `OperatingSystem` from `vs/base/common/platform`. -/
inductive OperatingSystem
  | Windows
  | Macintosh
  | Linux
deriving DecidableEq, Repr

/-- `isPortPrivileged(port, os?)` (tunnel.ts:106-112).  The truthiness test
`if (os)` distinguishes the supplied-`os` branch; the other branch consults the
current platform, carried here as the `isWindows` flag. -/
def isPortPrivileged (isWindows : Bool) (port : Nat) (os : Option OperatingSystem) : Bool :=
  match os with
  | some osv => decide (osv ≠ OperatingSystem.Windows) && decide (port < 1024)
  | none => !isWindows && decide (port < 1024)

/-- The data fields of a `RemoteTunnel` (tunnel.ts:16-23); the `dispose`
member is modelled separately by `handleDispose`. -/
structure RemoteTunnel where
  tunnelRemotePort : Nat
  tunnelRemoteHost : String
  tunnelLocalPort : Option Nat
  localAddress : String
  isPublic : Bool
deriving DecidableEq, Repr

/-- `TunnelOptions` (tunnel.ts:25-30). -/
structure TunnelOptions where
  remoteHost : String
  remotePort : Nat
  localAddressPort : Option Nat
  isPublic : Bool
deriving DecidableEq, Repr

/-- `TunnelCreationOptions` (tunnel.ts:32-34). -/
structure TunnelCreationOptions where
  elevationRequired : Bool
deriving DecidableEq, Repr

/-- A `Promise<RemoteTunnel | undefined>`, modelled by a promise identity
(`pid`, so that sharing of one pending promise is observable) together with
the value it eventually resolves to. -/
structure TunnelPromise where
  pid : Nat
  result : Option RemoteTunnel
deriving DecidableEq, Repr

/-- The `{ refcount, value }` record stored in `_tunnels` (tunnel.ts:121). -/
structure TunnelRecord where
  refcount : Int
  value : TunnelPromise
deriving DecidableEq, Repr

/-- Events fired through `_onTunnelOpened` / `_onTunnelClosed`. -/
inductive TunnelEvt
  | opened (t : RemoteTunnel)
  | closed (host : String) (port : Nat)
deriving DecidableEq, Repr

/-- The observable state of an `AbstractTunnelService`: the two-level
`_tunnels` map, a counter providing fresh promise identities, the log of
provider `forwardPort` invocations (with the options each received), the fired
events, and the underlying tunnels whose `dispose` has been called. -/
structure TunnelState where
  tunnels : List (String × List (Nat × TunnelRecord))
  nextPid : Nat
  providerLog : List (TunnelOptions × TunnelCreationOptions)
  events : List TunnelEvt
  disposed : List RemoteTunnel
deriving DecidableEq, Repr

/-- The state of a freshly constructed tunnel service. -/
def initState : TunnelState :=
  { tunnels := [], nextPid := 0, providerLog := [], events := [], disposed := [] }

/-- A tunnel provider's behaviour: the tunnel (or `undefined`) that the promise
returned by the n-th `forwardPort` call eventually resolves to. -/
def Provider : Type := Nat → Option RemoteTunnel

/-- `getOtherLocalhost` (tunnel.ts:102-104). -/
def getOtherLocalhost (host : String) : Option String :=
  if host = "localhost" then some "127.0.0.1"
  else if host = "127.0.0.1" then some "localhost"
  else none

/-- `addTunnelToMap` (tunnel.ts:263-268): ensure a port map exists for the
host, then store `{ refcount: 1, value: tunnel }` at the port. -/
def addTunnelToMap (s : TunnelState) (remoteHost : String) (remotePort : Nat)
    (tunnel : TunnelPromise) : TunnelState :=
  let hostMap := (jget s.tunnels remoteHost).getD []
  let hostMap1 := jset hostMap remotePort { refcount := 1, value := tunnel }
  { s with tunnels := jset s.tunnels remoteHost hostMap1 }

/-- `getTunnelFromMap` (tunnel.ts:284-299): for `localhost`/`127.0.0.1` the two
hosts' port maps are merged (`new Map([...first, ...second])`, second
overriding) when both exist, else whichever exists is used; other hosts are
looked up directly. -/
def getTunnelFromMap (s : TunnelState) (remoteHost : String) (remotePort : Nat) :
    Option TunnelRecord :=
  match getOtherLocalhost remoteHost with
  | some other =>
    match jget s.tunnels remoteHost, jget s.tunnels other with
    | some firstMap, some secondMap =>
        jget (jsetAll (jsetAll [] firstMap) secondMap) remotePort
    | some firstMap, none => jget firstMap remotePort
    | none, some secondMap => jget secondMap remotePort
    | none, none => none
  | none =>
    match jget s.tunnels remoteHost with
    | some portMap => jget portMap remotePort
    | none => none

/-- Plain two-level lookup in `_tunnels`, with no host aliasing (the access
pattern of `closeTunnel` and of `makeTunnel`'s `dispose`). -/
def directGet (s : TunnelState) (host : String) (port : Nat) : Option TunnelRecord :=
  match jget s.tunnels host with
  | some pm => jget pm port
  | none => none

/-- `tryDisposeTunnel` (tunnel.ts:238-252): when the record's refcount is
`<= 0`, await the stored value and, if a tunnel resolved, dispose it and fire
`onTunnelClosed` with the tunnel's own remote host and port; the entry is
deleted from the host's port map. -/
def tryDisposeTunnel (s : TunnelState) (remoteHost : String) (remotePort : Nat)
    (tunnel : TunnelRecord) : TunnelState :=
  if tunnel.refcount ≤ 0 then
    let s1 :=
      if jhas s.tunnels remoteHost then
        let hostMap1 := jdelete ((jget s.tunnels remoteHost).getD []) remotePort
        { s with tunnels := jset s.tunnels remoteHost hostMap1 }
      else s
    match tunnel.value.result with
    | some t =>
        { s1 with
            disposed := s1.disposed ++ [t],
            events := s1.events ++ [TunnelEvt.closed t.tunnelRemoteHost t.tunnelRemotePort] }
    | none => s1
  else s

/-- The `dispose` closure of the handle produced by `makeTunnel`
(tunnel.ts:225-234): look the record up under the wrapped tunnel's own remote
host and port, decrement its refcount, then `tryDisposeTunnel`. -/
def handleDispose (s : TunnelState) (host : String) (port : Nat) : TunnelState :=
  match jget s.tunnels host with
  | none => s
  | some existingHost =>
    match jget existingHost port with
    | none => s
    | some existing =>
      let existing1 : TunnelRecord := { existing with refcount := existing.refcount - 1 }
      let s1 := { s with tunnels := jset s.tunnels host (jset existingHost port existing1) }
      tryDisposeTunnel s1 host port existing1

/-- The data copy performed by `makeTunnel` (tunnel.ts:218-224). -/
def makeTunnel (t : RemoteTunnel) : RemoteTunnel :=
  { tunnelRemotePort := t.tunnelRemotePort,
    tunnelRemoteHost := t.tunnelRemoteHost,
    tunnelLocalPort := t.tunnelLocalPort,
    localAddress := t.localAddress,
    isPublic := t.isPublic }

/-- `closeTunnel` (tunnel.ts:254-261): if the exact `(host, port)` entry
exists, set its refcount to `0` and `tryDisposeTunnel`. -/
def closeTunnel (s : TunnelState) (remoteHost : String) (remotePort : Nat) : TunnelState :=
  match jget s.tunnels remoteHost with
  | none => s
  | some portMap =>
    match jget portMap remotePort with
    | none => s
    | some value =>
      let value1 : TunnelRecord := { value with refcount := 0 }
      let s1 := { s with tunnels := jset s.tunnels remoteHost (jset portMap remotePort value1) }
      tryDisposeTunnel s1 remoteHost remotePort value1

/-- `removeEmptyTunnelFromMap` (tunnel.ts:270-282) exactly as written in the
source: `await tunnel` is applied to the map *record* `{refcount, value}`
itself, not to its `value` promise, so `tunnelResult` is the (truthy) record
whenever the entry exists and the `if (!tunnelResult)` deletion only runs when
the entry is already absent. -/
def removeEmptyTunnelFromMap (s : TunnelState) (remoteHost : String) (remotePort : Nat) :
    TunnelState :=
  match jget s.tunnels remoteHost with
  | none => s
  | some hostMap =>
    let tunnelResult : Option TunnelRecord := jget hostMap remotePort
    let hostMap1 := if tunnelResult.isNone then jdelete hostMap remotePort else hostMap
    let s1 := { s with tunnels := jset s.tunnels remoteHost hostMap1 }
    if hostMap1.length = 0 then { s1 with tunnels := jdelete s1.tunnels remoteHost } else s1

/-- `createWithProvider` (tunnel.ts:307-319): compute the preferred local port
and the elevation requirement, call the provider's `forwardPort` (logged with
its options; in this model the provider always returns a promise, whose
eventual resolution the `Provider` oracle supplies), and store the promise in
the map via `addTunnelToMap`. -/
def createWithProvider (provider : Provider) (isWindows : Bool) (s : TunnelState)
    (remoteHost : String) (remotePort : Nat) (localPort : Option Nat)
    (elevateIfNeeded : Bool) (isPublic : Bool) : TunnelPromise × TunnelState :=
  let preferredLocalPort := match localPort with | none => remotePort | some lp => lp
  let creationInfo : TunnelCreationOptions :=
    { elevationRequired :=
        if elevateIfNeeded then isPortPrivileged isWindows preferredLocalPort none else false }
  let tunnelOptions : TunnelOptions :=
    { remoteHost := remoteHost, remotePort := remotePort,
      localAddressPort := localPort, isPublic := isPublic }
  let tunnel : TunnelPromise := { pid := s.nextPid, result := provider s.providerLog.length }
  let s1 := { s with
      nextPid := s.nextPid + 1,
      providerLog := s.providerLog ++ [(tunnelOptions, creationInfo)] }
  (tunnel, addTunnelToMap s1 remoteHost remotePort tunnel)

/-- Increment, in place, the refcount of the record stored at `(host,
remotePort)`, if any. -/
def bumpRefcountAt (s : TunnelState) (host : String) (remotePort : Nat) : TunnelState :=
  match jget s.tunnels host with
  | none => s
  | some hm =>
    match jget hm remotePort with
    | none => s
    | some r =>
      let hm1 := jset hm remotePort { r with refcount := r.refcount + 1 }
      { s with tunnels := jset s.tunnels host hm1 }

/-- Increment, in place, the refcount of the record that `getTunnelFromMap`
would return for `(remoteHost, remotePort)` — in the merged view the second
(aliased) host's record shadows the first's, so the increment lands on the
record `getTunnelFromMap` actually found. -/
def bumpRefcount (s : TunnelState) (remoteHost : String) (remotePort : Nat) : TunnelState :=
  match getOtherLocalhost remoteHost with
  | some other =>
    match jget s.tunnels remoteHost, jget s.tunnels other with
    | some _, some otherMap =>
        if (jget otherMap remotePort).isSome then bumpRefcountAt s other remotePort
        else bumpRefcountAt s remoteHost remotePort
    | some _, none => bumpRefcountAt s remoteHost remotePort
    | none, some _ => bumpRefcountAt s other remotePort
    | none, none => s
  | none => bumpRefcountAt s remoteHost remotePort

/-- Modelled from the spec: `retainOrCreateTunnel` is declared `abstract` in
`AbstractTunnelService` (tunnel.ts:305) and no concrete subclass is among the
excerpted sources.  Per the spec ("concurrent callers increment refcount and
share one pending promise; resolution races are avoided by storing the
*promise* in the map before awaiting"), an existing record found through
`getTunnelFromMap` has its refcount incremented and its stored promise is
returned unchanged; otherwise the tunnel is created through
`createWithProvider`, which stores the new promise in the map. -/
def retainOrCreateTunnel (provider : Provider) (isWindows : Bool) (s : TunnelState)
    (remoteHost : String) (remotePort : Nat) (localPort : Option Nat)
    (elevateIfNeeded : Bool) (isPublic : Bool) : TunnelPromise × TunnelState :=
  match getTunnelFromMap s remoteHost remotePort with
  | some existing => (existing.value, bumpRefcount s remoteHost remotePort)
  | none => createWithProvider provider isWindows s remoteHost remotePort localPort
      elevateIfNeeded isPublic

/-- The synchronous part of `openTunnel` (tunnel.ts:186-200): default the host
to `localhost`, then `retainOrCreateTunnel`; the returned promise is stored in
the map before anything awaits it.  Returns `none` (with the state unchanged)
when `addressProvider` is `undefined`. -/
def openTunnelSync (provider : Provider) (isWindows : Bool) (s : TunnelState)
    (addressProvider : Bool) (remoteHost : Option String) (remotePort : Nat)
    (localPort : Option Nat) (elevateIfNeeded : Bool) (isPublic : Bool) :
    Option TunnelPromise × TunnelState :=
  if !addressProvider then (none, s)
  else
    let host := match remoteHost with | none => "localhost" | some h => h
    let pr := retainOrCreateTunnel provider isWindows s host remotePort localPort
      elevateIfNeeded isPublic
    (some pr.1, pr.2)

/-- The continuation `resolvedTunnel.then(...)` of `openTunnel`
(tunnel.ts:202-215): an `undefined` resolution triggers
`removeEmptyTunnelFromMap` and yields `undefined`; a tunnel is wrapped by
`makeTunnel`, `onTunnelOpened` fires with the wrapper, and the wrapper is
returned. -/
def openTunnelThen (s : TunnelState) (host : String) (remotePort : Nat)
    (promise : TunnelPromise) : Option RemoteTunnel × TunnelState :=
  match promise.result with
  | none => (none, removeEmptyTunnelFromMap s host remotePort)
  | some tunnel =>
    let newTunnel := makeTunnel tunnel
    (some newTunnel, { s with events := s.events ++ [TunnelEvt.opened newTunnel] })

/-- `openTunnel` (tunnel.ts:186-216), run to completion for a single caller:
the synchronous part followed by the resolution continuation. -/
def openTunnel (provider : Provider) (isWindows : Bool) (s : TunnelState)
    (addressProvider : Bool) (remoteHost : Option String) (remotePort : Nat)
    (localPort : Option Nat) (elevateIfNeeded : Bool) (isPublic : Bool) :
    Option RemoteTunnel × TunnelState :=
  let r := openTunnelSync provider isWindows s addressProvider remoteHost remotePort
    localPort elevateIfNeeded isPublic
  match r.1 with
  | none => (none, r.2)
  | some promise => openTunnelThen r.2 (remoteHost.getD "localhost") remotePort promise

end Tunnel

namespace JsMap

theorem jget_jset_cases {α β : Type} [DecidableEq α] {m : List (α × β)} {k k' : α}
    {v w : β} (h : jget (jset m k v) k' = some w) :
    (k' = k ∧ w = v) ∨ (k' ≠ k ∧ jget m k' = some w) := by
  by_cases hk : k' = k
  · subst hk
    rw [jget_jset_self] at h
    exact Or.inl ⟨rfl, ((Option.some.injEq _ _).mp h).symm⟩
  · rw [jget_jset_ne _ _ hk] at h
    exact Or.inr ⟨hk, h⟩

theorem jget_jdelete_sub {α β : Type} [DecidableEq α] {m : List (α × β)} {k k' : α}
    {w : β} (h : jget (jdelete m k) k' = some w) : jget m k' = some w := by
  by_cases hk : k' = k
  · subst hk
    rw [jget_jdelete_self] at h
    exact absurd h (by simp)
  · rwa [jget_jdelete_ne _ hk] at h

end JsMap

namespace Tunnel

open JsMap

theorem getOtherLocalhost_ne {host other : String}
    (h : getOtherLocalhost host = some other) : other ≠ host := by
  unfold getOtherLocalhost at h
  split_ifs at h with h1 h2
  · cases h; subst h1; decide
  · cases h; subst h2; decide

/-- On a `_tunnels` map holding a single host, `getTunnelFromMap` looks the
port up in that host's port map, aliasing or not. -/
theorem getTunnelFromMap_single (s : TunnelState) (host : String)
    (pm : List (Nat × TunnelRecord)) (port : Nat) (h : s.tunnels = [(host, pm)]) :
    getTunnelFromMap s host port = jget pm port := by
  unfold getTunnelFromMap
  cases hother : getOtherLocalhost host with
  | none => simp [h, jget_cons]
  | some other =>
    have hne := getOtherLocalhost_ne hother
    simp [h, jget_cons, hne]

theorem getTunnelFromMap_empty (s : TunnelState) (host : String) (port : Nat)
    (h : s.tunnels = []) : getTunnelFromMap s host port = none := by
  unfold getTunnelFromMap
  cases hother : getOtherLocalhost host with
  | none => simp [h]
  | some other => simp [h]

theorem bumpRefcountAt_single (s : TunnelState) (host : String)
    (pm : List (Nat × TunnelRecord)) (port : Nat) (r : TunnelRecord)
    (h : s.tunnels = [(host, pm)]) (hr : jget pm port = some r) :
    bumpRefcountAt s host port =
      { s with tunnels := [(host, jset pm port { r with refcount := r.refcount + 1 })] } := by
  unfold bumpRefcountAt
  simp [h, jget_cons, hr, jset]

theorem bumpRefcount_single (s : TunnelState) (host : String)
    (pm : List (Nat × TunnelRecord)) (port : Nat) (r : TunnelRecord)
    (h : s.tunnels = [(host, pm)]) (hr : jget pm port = some r) :
    bumpRefcount s host port =
      { s with tunnels := [(host, jset pm port { r with refcount := r.refcount + 1 })] } := by
  unfold bumpRefcount
  cases hother : getOtherLocalhost host with
  | none => simp [bumpRefcountAt_single s host pm port r h hr]
  | some other =>
    have hne := getOtherLocalhost_ne hother
    simp [h, jget_cons, hne, bumpRefcountAt_single s host pm port r h hr]

end Tunnel

namespace Tunnel

open JsMap

theorem createWithProvider_parts (provider : Provider) (iswin : Bool) (s : TunnelState)
    (host : String) (rp : Nat) (lp : Option Nat) (e pub : Bool) :
    (createWithProvider provider iswin s host rp lp e pub).1 =
        { pid := s.nextPid, result := provider s.providerLog.length } ∧
    (createWithProvider provider iswin s host rp lp e pub).2.tunnels =
        jset s.tunnels host (jset ((jget s.tunnels host).getD []) rp
          { refcount := 1, value := { pid := s.nextPid, result := provider s.providerLog.length } }) ∧
    (createWithProvider provider iswin s host rp lp e pub).2.providerLog.length =
        s.providerLog.length + 1 ∧
    (createWithProvider provider iswin s host rp lp e pub).2.events = s.events ∧
    (createWithProvider provider iswin s host rp lp e pub).2.disposed = s.disposed := by
  unfold createWithProvider addTunnelToMap
  simp

/-- C7: `isPortPrivileged(port, os)` holds exactly when the operating system
(the supplied one, or the current platform when none is supplied) is not
Windows and the port is below 1024; `createWithProvider` passes the provider a
`TunnelCreationOptions` whose `elevationRequired` is `isPortPrivileged` of the
preferred local port (the requested `localPort`, defaulting to `remotePort`)
when `elevateIfNeeded` is set, and `false` otherwise. -/
theorem isPortPrivileged_elevation_spec (iswin : Bool) (port : Nat) (os : OperatingSystem)
    (provider : Provider) (s : TunnelState) (host : String) (rp : Nat) (lp : Option Nat)
    (e pub : Bool) :
    (isPortPrivileged iswin port (some os) = true ↔
      (os ≠ OperatingSystem.Windows ∧ port < 1024)) ∧
    (isPortPrivileged iswin port none = true ↔ (iswin = false ∧ port < 1024)) ∧
    (createWithProvider provider iswin s host rp lp e pub).2.providerLog =
      s.providerLog ++
        [({ remoteHost := host, remotePort := rp, localAddressPort := lp, isPublic := pub },
          { elevationRequired :=
              if e then isPortPrivileged iswin (lp.getD rp) none else false })] := by
  refine ⟨?_, ?_, ?_⟩
  · simp [isPortPrivileged]
  · simp [isPortPrivileged]
  · unfold createWithProvider addTunnelToMap
    cases lp <;> simp [Option.getD]

/-- C5 (records the code bug): when the provider's promise resolves to
`undefined`, `openTunnel` resolves to `undefined` for the caller, but the
refcount-1 record stays in `_tunnels` — `removeEmptyTunnelFromMap` awaits the
record object instead of its `value` promise, so its emptiness check never
fires — and `openTunnel` with an `undefined` addressProvider returns
`undefined` leaving the state untouched. -/
theorem openTunnel_failed_keeps_stale_entry :
    (openTunnel (fun _ => none) false initState true (some "localhost") 8080
        none false false).1 = none ∧
    directGet (openTunnel (fun _ => none) false initState true (some "localhost") 8080
        none false false).2 "localhost" 8080 =
      some { refcount := 1, value := { pid := 0, result := none } } ∧
    (∀ (provider : Provider) (iswin : Bool) (s : TunnelState) (host : Option String)
        (rp : Nat) (lp : Option Nat) (e pub : Bool),
      openTunnel provider iswin s false host rp lp e pub = (none, s)) := by
  refine ⟨by decide, by decide, ?_⟩
  intro provider iswin s host rp lp e pub
  rfl

/-- C1: opening the same `(host, port)` a second time while the first open is
still pending performs no second provider call: the first open stores the
pending promise (promise id 0, resolving to the provider's first answer) in
the map, the second open finds that record, bumps its refcount to 2, and both
callers get the same promise back. -/
theorem openTunnel_twice_shares_one_tunnel (provider : Provider) (iswin : Bool)
    (host : String) (port : Nat) (lp lp' : Option Nat) (e e' pub pub' : Bool) :
    let r1 := openTunnelSync provider iswin initState true (some host) port lp e pub
    let r2 := openTunnelSync provider iswin r1.2 true (some host) port lp' e' pub'
    r1.1 = some { pid := 0, result := provider 0 } ∧
    r2.1 = r1.1 ∧
    getTunnelFromMap r2.2 host port =
      some { refcount := 2, value := { pid := 0, result := provider 0 } } ∧
    r2.2.providerLog.length = 1 := by
  intro r1 r2
  have e0 : retainOrCreateTunnel provider iswin initState host port lp e pub =
      createWithProvider provider iswin initState host port lp e pub := by
    unfold retainOrCreateTunnel
    rw [getTunnelFromMap_empty initState host port rfl]
  have hcw := createWithProvider_parts provider iswin initState host port lp e pub
  have p1 : r1.1 =
      some (retainOrCreateTunnel provider iswin initState host port lp e pub).1 := rfl
  have p2 : r1.2 =
      (retainOrCreateTunnel provider iswin initState host port lp e pub).2 := rfl
  have hr1 : r1.1 = some { pid := 0, result := provider 0 } := by
    rw [p1, e0, hcw.1]
    rfl
  have hs1tun : r1.2.tunnels =
      [(host, [(port, { refcount := 1, value := { pid := 0, result := provider 0 } })])] := by
    rw [p2, e0, hcw.2.1]
    simp [initState, jset]
  have hs1log : r1.2.providerLog.length = 1 := by
    rw [p2, e0, hcw.2.2.1]
    rfl
  have g1 : getTunnelFromMap r1.2 host port =
      some { refcount := 1, value := { pid := 0, result := provider 0 } } := by
    rw [getTunnelFromMap_single r1.2 host _ port hs1tun]
    simp [jget_cons]
  have e2b : retainOrCreateTunnel provider iswin r1.2 host port lp' e' pub' =
      ({ pid := 0, result := provider 0 }, bumpRefcount r1.2 host port) := by
    unfold retainOrCreateTunnel
    rw [g1]
  have q1 : r2.1 =
      some (retainOrCreateTunnel provider iswin r1.2 host port lp' e' pub').1 := rfl
  have q2 : r2.2 =
      (retainOrCreateTunnel provider iswin r1.2 host port lp' e' pub').2 := rfl
  have e3 : bumpRefcount r1.2 host port = { r1.2 with tunnels :=
      [(host, [(port, { refcount := 2, value := { pid := 0, result := provider 0 } })])] } := by
    rw [bumpRefcount_single r1.2 host
      [(port, { refcount := 1, value := { pid := 0, result := provider 0 } })] port
      { refcount := 1, value := { pid := 0, result := provider 0 } } hs1tun (by simp [jget_cons])]
    norm_num [jset]
  have hr2 : r2.1 = some { pid := 0, result := provider 0 } := by
    rw [q1, e2b]
  have hr2tun : r2.2.tunnels =
      [(host, [(port, { refcount := 2, value := { pid := 0, result := provider 0 } })])] := by
    rw [q2, e2b, e3]
  refine ⟨hr1, ?_, ?_, ?_⟩
  · rw [hr2, hr1]
  · rw [getTunnelFromMap_single r2.2 host _ port hr2tun]
    simp [jget_cons]
  · rw [q2, e2b, e3]
    exact hs1log

end Tunnel

namespace Tunnel

open JsMap

/-- C2: on a record with refcount 2 holding a resolved tunnel `t`, the first
`dispose` of the handle returned by `openTunnel` just decrements the refcount
to 1 — the entry stays in the map, nothing is disposed, no event fires — and
the second `dispose` brings it to 0: the underlying tunnel is disposed, the
`(host, port)` entry is removed, and `onTunnelClosed` fires with that host and
port. -/
theorem dispose_twice_closes_tunnel (s : TunnelState) (hm : List (Nat × TunnelRecord))
    (t : RemoteTunnel) (pid : Nat)
    (hhost : jget s.tunnels t.tunnelRemoteHost = some hm)
    (hport : jget hm t.tunnelRemotePort =
      some { refcount := 2, value := { pid := pid, result := some t } }) :
    directGet (handleDispose s t.tunnelRemoteHost t.tunnelRemotePort)
        t.tunnelRemoteHost t.tunnelRemotePort =
      some { refcount := 1, value := { pid := pid, result := some t } } ∧
    (handleDispose s t.tunnelRemoteHost t.tunnelRemotePort).disposed = s.disposed ∧
    (handleDispose s t.tunnelRemoteHost t.tunnelRemotePort).events = s.events ∧
    directGet (handleDispose (handleDispose s t.tunnelRemoteHost t.tunnelRemotePort)
        t.tunnelRemoteHost t.tunnelRemotePort) t.tunnelRemoteHost t.tunnelRemotePort = none ∧
    (handleDispose (handleDispose s t.tunnelRemoteHost t.tunnelRemotePort)
        t.tunnelRemoteHost t.tunnelRemotePort).disposed = s.disposed ++ [t] ∧
    (handleDispose (handleDispose s t.tunnelRemoteHost t.tunnelRemotePort)
        t.tunnelRemoteHost t.tunnelRemotePort).events =
      s.events ++ [TunnelEvt.closed t.tunnelRemoteHost t.tunnelRemotePort] := by
  have e1 : handleDispose s t.tunnelRemoteHost t.tunnelRemotePort =
      { s with tunnels := jset s.tunnels t.tunnelRemoteHost (jset hm t.tunnelRemotePort
          { refcount := 1, value := { pid := pid, result := some t } }) } := by
    simp only [handleDispose, hhost, hport, tryDisposeTunnel]
    norm_num
  have h1host : jget (jset s.tunnels t.tunnelRemoteHost (jset hm t.tunnelRemotePort
      { refcount := 1, value := { pid := pid, result := some t } })) t.tunnelRemoteHost =
      some (jset hm t.tunnelRemotePort
        { refcount := 1, value := { pid := pid, result := some t } }) := jget_jset_self _ _ _
  have h1port : jget (jset hm t.tunnelRemotePort
      { refcount := 1, value := { pid := pid, result := some t } }) t.tunnelRemotePort =
      some { refcount := 1, value := { pid := pid, result := some t } } := jget_jset_self _ _ _
  refine ⟨?_, ?_, ?_, ?_, ?_, ?_⟩
  · rw [e1]
    simp [directGet, h1host, h1port]
  · rw [e1]
  · rw [e1]
  · rw [e1]
    simp only [handleDispose, h1host, h1port, tryDisposeTunnel]
    simp [directGet, jhas, jget_jset_self, jget_jdelete_self]
  · rw [e1]
    simp only [handleDispose, h1host, h1port, tryDisposeTunnel]
    simp [jhas, jget_jset_self]
  · rw [e1]
    simp only [handleDispose, h1host, h1port, tryDisposeTunnel]
    simp [jhas, jget_jset_self]

/-- A concrete resolved tunnel used by the witnesses. -/
def sampleTunnel : RemoteTunnel :=
  { tunnelRemotePort := 8080, tunnelRemoteHost := "localhost",
    tunnelLocalPort := some 8080, localAddress := "localhost:8080", isPublic := false }

/-- A concrete refcount-2 record holding `sampleTunnel`. -/
def sampleRecord : TunnelRecord :=
  { refcount := 2, value := { pid := 0, result := some sampleTunnel } }

/-- A concrete port map holding `sampleTunnel` with refcount 2. -/
def samplePortMap : List (Nat × TunnelRecord) :=
  [(8080, sampleRecord)]

/-- A concrete service state holding `sampleTunnel` under `localhost:8080`. -/
def sampleState : TunnelState :=
  { tunnels := [("localhost", samplePortMap)], nextPid := 1, providerLog := [],
    events := [], disposed := [] }

/-- Witness for C2 at a concrete refcount-2 record. -/
theorem dispose_twice_closes_tunnel_witness :
    directGet (handleDispose (handleDispose sampleState "localhost" 8080) "localhost" 8080)
      "localhost" 8080 = none :=
  (dispose_twice_closes_tunnel sampleState samplePortMap sampleTunnel 0
    (by decide) (by decide)).2.2.2.1

end Tunnel

namespace Tunnel

open JsMap

/-- C4: `closeTunnel` on an existing `(host, port)` entry zeroes its refcount
and disposes it — the entry leaves the map, the underlying tunnel's dispose
runs, and `onTunnelClosed` fires — while on a missing entry it is a no-op. -/
theorem closeTunnel_forces_dispose (s : TunnelState) (host : String) (port : Nat) :
    (∀ (r : TunnelRecord) (t : RemoteTunnel),
      directGet s host port = some r → r.value.result = some t →
      directGet (closeTunnel s host port) host port = none ∧
      (closeTunnel s host port).disposed = s.disposed ++ [t] ∧
      (closeTunnel s host port).events =
        s.events ++ [TunnelEvt.closed t.tunnelRemoteHost t.tunnelRemotePort]) ∧
    (directGet s host port = none → closeTunnel s host port = s) := by
  constructor
  · intro r t hr ht
    cases hpm : jget s.tunnels host with
    | none => simp [directGet, hpm] at hr
    | some pm =>
      have hpp : jget pm port = some r := by
        simpa [directGet, hpm] using hr
      refine ⟨?_, ?_, ?_⟩ <;>
        simp [closeTunnel, hpm, hpp, tryDisposeTunnel, ht, jhas, directGet,
          jget_jset_self, jget_jdelete_self]
  · intro hr
    cases hpm : jget s.tunnels host with
    | none => simp [closeTunnel, hpm]
    | some pm =>
      have hpp : jget pm port = none := by
        simpa [directGet, hpm] using hr
      simp [closeTunnel, hpm, hpp]

/-- Witness for C4 at a concrete entry and at a concrete missing entry. -/
theorem closeTunnel_forces_dispose_witness :
    directGet (closeTunnel sampleState "localhost" 8080) "localhost" 8080 = none ∧
    closeTunnel sampleState "10.0.0.7" 80 = sampleState :=
  ⟨((closeTunnel_forces_dispose sampleState "localhost" 8080).1 sampleRecord sampleTunnel
      (by decide) (by decide)).1,
    (closeTunnel_forces_dispose sampleState "10.0.0.7" 80).2 (by decide)⟩

/-- C6: a query for `localhost` finds a record stored under either
`localhost` or `127.0.0.1` and conversely, while a query for any other host
consults only the entries stored under exactly that host. -/
theorem getTunnelFromMap_alias_spec (s : TunnelState) (port : Nat) :
    ((getTunnelFromMap s "localhost" port).isSome =
      ((directGet s "localhost" port).isSome || (directGet s "127.0.0.1" port).isSome)) ∧
    ((getTunnelFromMap s "127.0.0.1" port).isSome =
      ((directGet s "127.0.0.1" port).isSome || (directGet s "localhost" port).isSome)) ∧
    (∀ host : String, host ≠ "localhost" → host ≠ "127.0.0.1" →
      getTunnelFromMap s host port = directGet s host port) := by
  refine ⟨?_, ?_, ?_⟩
  · unfold getTunnelFromMap
    simp only [getOtherLocalhost]
    norm_num
    cases h1 : jget s.tunnels "localhost" with
    | none =>
      cases h2 : jget s.tunnels "127.0.0.1" with
      | none => simp [directGet, h1, h2]
      | some sm => simp [directGet, h1, h2]
    | some f =>
      cases h2 : jget s.tunnels "127.0.0.1" with
      | none => simp [directGet, h1, h2]
      | some sm =>
        have hA := jhas_jsetAll ([] : List (Nat × TunnelRecord)) f port
        have hB := jhas_jsetAll (jsetAll ([] : List (Nat × TunnelRecord)) f) sm port
        simp only [jhas] at hA hB
        simp [directGet, h1, h2, hB, hA]
  · unfold getTunnelFromMap
    simp only [getOtherLocalhost]
    norm_num
    cases h1 : jget s.tunnels "127.0.0.1" with
    | none =>
      cases h2 : jget s.tunnels "localhost" with
      | none => simp [directGet, h1, h2]
      | some sm => simp [directGet, h1, h2]
    | some f =>
      cases h2 : jget s.tunnels "localhost" with
      | none => simp [directGet, h1, h2]
      | some sm =>
        have hA := jhas_jsetAll ([] : List (Nat × TunnelRecord)) f port
        have hB := jhas_jsetAll (jsetAll ([] : List (Nat × TunnelRecord)) f) sm port
        simp only [jhas] at hA hB
        simp [directGet, h1, h2, hB, hA]
  · intro host hne1 hne2
    unfold getTunnelFromMap directGet
    simp [getOtherLocalhost, hne1, hne2]

/-- Witness for C6: a record stored under `127.0.0.1` is found from
`localhost`, and a foreign host sees only its own entries. -/
theorem getTunnelFromMap_alias_spec_witness :
    (getTunnelFromMap
        { tunnels := [("127.0.0.1", samplePortMap)], nextPid := 1, providerLog := [],
          events := [], disposed := [] } "localhost" 8080).isSome = true ∧
    getTunnelFromMap sampleState "example.com" 8080 =
      directGet sampleState "example.com" 8080 :=
  ⟨by
    rw [(getTunnelFromMap_alias_spec
      { tunnels := [("127.0.0.1", samplePortMap)], nextPid := 1, providerLog := [],
        events := [], disposed := [] } 8080).1]
    decide,
   (getTunnelFromMap_alias_spec sampleState 8080).2.2 "example.com"
     (by decide) (by decide)⟩

end Tunnel

namespace Tunnel

open JsMap

/-- The operations a client can perform against the service: a full
`openTunnel`, a `dispose` of a handle returned by `makeTunnel`, and a
`closeTunnel`. -/
inductive TOp
  | openT (addressProvider : Bool) (remoteHost : Option String) (remotePort : Nat)
      (localPort : Option Nat) (elevateIfNeeded : Bool) (isPublic : Bool)
  | disposeT (host : String) (port : Nat)
  | closeT (host : String) (port : Nat)

/-- Run one operation against the service state. -/
def stepOp (provider : Provider) (isWindows : Bool) (s : TunnelState) : TOp → TunnelState
  | TOp.openT ap h p lp e pub => (openTunnel provider isWindows s ap h p lp e pub).2
  | TOp.disposeT h p => handleDispose s h p
  | TOp.closeT h p => closeTunnel s h p

/-- Run a sequence of operations. -/
def runOps (provider : Provider) (isWindows : Bool) (ops : List TOp) (s : TunnelState) :
    TunnelState :=
  ops.foldl (stepOp provider isWindows) s

/-- Every record in the `_tunnels` map has refcount at least 1. -/
def recOK (s : TunnelState) : Prop :=
  ∀ h hm p r, jget s.tunnels h = some hm → jget hm p = some r → 1 ≤ r.refcount

theorem recOK_initState : recOK initState := by
  intro h hm p r hh _
  simp [initState] at hh

theorem recOK_tunnels_eq {s s' : TunnelState} (h : s'.tunnels = s.tunnels)
    (hok : recOK s) : recOK s' := by
  intro a hm p r hh hp
  rw [h] at hh
  exact hok a hm p r hh hp

theorem recOK_jset (s : TunnelState) (host : String) (hm1 : List (Nat × TunnelRecord))
    (hok : recOK s) (h1 : ∀ p r, jget hm1 p = some r → 1 ≤ r.refcount) :
    recOK { s with tunnels := jset s.tunnels host hm1 } := by
  intro h hm p r hh hp
  rcases jget_jset_cases hh with ⟨_, hv⟩ | ⟨_, hold⟩
  · subst hv
    exact h1 p r hp
  · exact hok h hm p r hold hp

theorem recOK_addTunnelToMap (s : TunnelState) (host : String) (port : Nat)
    (pr : TunnelPromise) (hok : recOK s) : recOK (addTunnelToMap s host port pr) := by
  unfold addTunnelToMap
  apply recOK_jset s host _ hok
  intro p r hp
  rcases jget_jset_cases hp with ⟨_, hv⟩ | ⟨_, hold⟩
  · subst hv
    norm_num
  · cases hh : jget s.tunnels host with
    | none =>
      rw [hh] at hold
      simp at hold
    | some hm0 =>
      rw [hh] at hold
      exact hok host hm0 p r hh (by simpa using hold)

theorem recOK_bumpRefcountAt (s : TunnelState) (host : String) (port : Nat)
    (hok : recOK s) : recOK (bumpRefcountAt s host port) := by
  unfold bumpRefcountAt
  split
  · exact hok
  · rename_i hm hh
    split
    · exact hok
    · rename_i r hp
      apply recOK_jset s host _ hok
      intro p' r' hp'
      rcases jget_jset_cases hp' with ⟨_, hv⟩ | ⟨_, hold⟩
      · subst hv
        have := hok host hm port r hh hp
        show 1 ≤ r.refcount + 1
        omega
      · exact hok host hm p' r' hh hold

theorem recOK_bumpRefcount (s : TunnelState) (host : String) (port : Nat)
    (hok : recOK s) : recOK (bumpRefcount s host port) := by
  unfold bumpRefcount
  split
  · rename_i other _
    split
    · split
      · exact recOK_bumpRefcountAt s other port hok
      · exact recOK_bumpRefcountAt s host port hok
    · exact recOK_bumpRefcountAt s host port hok
    · exact recOK_bumpRefcountAt s other port hok
    · exact hok
  · exact recOK_bumpRefcountAt s host port hok

theorem recOK_tryDisposeTunnel (s : TunnelState) (host : String) (port : Nat)
    (rec : TunnelRecord)
    (hother : ∀ h hm p r, jget s.tunnels h = some hm → jget hm p = some r →
      ¬(h = host ∧ p = port) → 1 ≤ r.refcount)
    (hself : ∀ hm r, jget s.tunnels host = some hm → jget hm port = some r →
      r.refcount = rec.refcount) :
    recOK (tryDisposeTunnel s host port rec) := by
  unfold tryDisposeTunnel
  by_cases h0 : rec.refcount ≤ 0
  · rw [if_pos h0]
    have hcore : recOK (if jhas s.tunnels host then { s with tunnels := jset s.tunnels host (jdelete ((jget s.tunnels host).getD []) port) } else s) := by
      by_cases hjh : jhas s.tunnels host = true
      · rw [if_pos hjh]
        obtain ⟨hm0, hh0⟩ : ∃ hm0, jget s.tunnels host = some hm0 := by
          unfold jhas at hjh
          exact Option.isSome_iff_exists.mp hjh
        intro h hm p r hh hp
        rcases jget_jset_cases hh with ⟨hke, hv⟩ | ⟨hne, hold⟩
        · subst hv
          have hpne : p ≠ port := by
            intro he
            subst he
            rw [jget_jdelete_self] at hp
            cases hp
          have hsub := jget_jdelete_sub hp
          rw [hh0] at hsub
          exact hother host hm0 p r hh0 (by simpa using hsub) (fun hc => hpne hc.2)
        · exact hother h hm p r hold hp (fun hc => hne hc.1)
      · rw [if_neg hjh]
        intro h hm p r hh hp
        have hne : ¬(h = host ∧ p = port) := by
          rintro ⟨rfl, rfl⟩
          unfold jhas at hjh
          rw [hh] at hjh
          simp at hjh
        exact hother h hm p r hh hp hne
    have hfin : ∀ (s1 : TunnelState), recOK s1 → recOK (match rec.value.result with
        | some t =>
          { s1 with
              disposed := s1.disposed ++ [t],
              events := s1.events ++ [TunnelEvt.closed t.tunnelRemoteHost t.tunnelRemotePort] }
        | none => s1) := by
      intro s1 h1
      cases rec.value.result with
      | some t => exact recOK_tunnels_eq rfl h1
      | none => exact h1
    exact hfin _ hcore
  · rw [if_neg h0]
    intro h hm p r hh hp
    by_cases hcase : h = host ∧ p = port
    · obtain ⟨rfl, rfl⟩ := hcase
      have := hself hm r hh hp
      omega
    · exact hother h hm p r hh hp hcase

end Tunnel

namespace Tunnel

open JsMap

theorem recOK_handleDispose (s : TunnelState) (host : String) (port : Nat)
    (hok : recOK s) : recOK (handleDispose s host port) := by
  unfold handleDispose
  split
  · exact hok
  · rename_i hm hh
    split
    · exact hok
    · rename_i r hp
      apply recOK_tryDisposeTunnel
      · intro h hm' p r' hh' hp' hne
        rcases jget_jset_cases hh' with ⟨hke, hv⟩ | ⟨_, hold⟩
        · subst hv
          have hpne : p ≠ port := fun hpe => hne ⟨hke, hpe⟩
          rw [jget_jset_ne _ _ hpne] at hp'
          exact hok host hm p r' hh hp'
        · exact hok h hm' p r' hold hp'
      · intro hm' r' hh' hp'
        rw [jget_jset_self] at hh'
        obtain rfl := ((Option.some.injEq _ _).mp hh').symm
        rw [jget_jset_self] at hp'
        obtain rfl := ((Option.some.injEq _ _).mp hp').symm
        rfl

theorem recOK_closeTunnel (s : TunnelState) (host : String) (port : Nat)
    (hok : recOK s) : recOK (closeTunnel s host port) := by
  unfold closeTunnel
  split
  · exact hok
  · rename_i pm hh
    split
    · exact hok
    · rename_i r hp
      apply recOK_tryDisposeTunnel
      · intro h hm' p r' hh' hp' hne
        rcases jget_jset_cases hh' with ⟨hke, hv⟩ | ⟨_, hold⟩
        · subst hv
          have hpne : p ≠ port := fun hpe => hne ⟨hke, hpe⟩
          rw [jget_jset_ne _ _ hpne] at hp'
          exact hok host pm p r' hh hp'
        · exact hok h hm' p r' hold hp'
      · intro hm' r' hh' hp'
        rw [jget_jset_self] at hh'
        obtain rfl := ((Option.some.injEq _ _).mp hh').symm
        rw [jget_jset_self] at hp'
        obtain rfl := ((Option.some.injEq _ _).mp hp').symm
        rfl

theorem recOK_removeEmptyTunnelFromMap (s : TunnelState) (host : String) (port : Nat)
    (hok : recOK s) : recOK (removeEmptyTunnelFromMap s host port) := by
  unfold removeEmptyTunnelFromMap
  split
  · exact hok
  · rename_i hostMap hh
    dsimp only
    have hs1 : ∀ hm1 : List (Nat × TunnelRecord),
        (∀ p r, jget hm1 p = some r → jget hostMap p = some r) →
        recOK { s with tunnels := jset s.tunnels host hm1 } := by
      intro hm1 hsub
      apply recOK_jset s host _ hok
      intro p r hp
      exact hok host hostMap p r hh (hsub p r hp)
    split
    · split
      · intro h hm p r hh' hp'
        exact hs1 (jdelete hostMap port) (fun _ _ hp => jget_jdelete_sub hp)
          h hm p r (jget_jdelete_sub hh') hp'
      · exact hs1 (jdelete hostMap port) (fun _ _ hp => jget_jdelete_sub hp)
    · split
      · intro h hm p r hh' hp'
        exact hs1 hostMap (fun _ _ hp => hp) h hm p r (jget_jdelete_sub hh') hp'
      · exact hs1 hostMap (fun _ _ hp => hp)

theorem recOK_retainOrCreateTunnel (provider : Provider) (iswin : Bool) (s : TunnelState)
    (host : String) (rp : Nat) (lp : Option Nat) (e pub : Bool) (hok : recOK s) :
    recOK (retainOrCreateTunnel provider iswin s host rp lp e pub).2 := by
  unfold retainOrCreateTunnel
  split
  · exact recOK_bumpRefcount s host rp hok
  · show recOK (createWithProvider provider iswin s host rp lp e pub).2
    unfold createWithProvider
    apply recOK_addTunnelToMap
    exact recOK_tunnels_eq rfl hok

theorem recOK_openTunnelSync (provider : Provider) (iswin : Bool) (s : TunnelState)
    (ap : Bool) (rh : Option String) (rp : Nat) (lp : Option Nat) (e pub : Bool)
    (hok : recOK s) : recOK (openTunnelSync provider iswin s ap rh rp lp e pub).2 := by
  cases ap with
  | false => exact hok
  | true =>
    exact recOK_retainOrCreateTunnel provider iswin s
      (match rh with | none => "localhost" | some h => h) rp lp e pub hok

theorem recOK_openTunnelThen (s : TunnelState) (host : String) (port : Nat)
    (promise : TunnelPromise) (hok : recOK s) : recOK (openTunnelThen s host port promise).2 := by
  unfold openTunnelThen
  cases hres : promise.result with
  | none => exact recOK_removeEmptyTunnelFromMap s host port hok
  | some t => exact recOK_tunnels_eq rfl hok

theorem recOK_openTunnel (provider : Provider) (iswin : Bool) (s : TunnelState)
    (ap : Bool) (rh : Option String) (rp : Nat) (lp : Option Nat) (e pub : Bool)
    (hok : recOK s) : recOK (openTunnel provider iswin s ap rh rp lp e pub).2 := by
  unfold openTunnel
  dsimp only
  split
  · exact recOK_openTunnelSync provider iswin s ap rh rp lp e pub hok
  · exact recOK_openTunnelThen _ _ _ _ (recOK_openTunnelSync provider iswin s ap rh rp lp e pub hok)

theorem recOK_runOps (provider : Provider) (iswin : Bool) (ops : List TOp) (s : TunnelState)
    (hok : recOK s) : recOK (runOps provider iswin ops s) := by
  induction ops generalizing s with
  | nil => exact hok
  | cons op rest ih =>
    have h1 : recOK (stepOp provider iswin s op) := by
      cases op with
      | openT ap h p lp e pub => exact recOK_openTunnel provider iswin s ap h p lp e pub hok
      | disposeT h p => exact recOK_handleDispose s h p hok
      | closeT h p => exact recOK_closeTunnel s h p hok
    exact ih _ h1

/-- C3: every record reachable in the `_tunnels` map through any sequence of
`openTunnel` / per-handle `dispose` / `closeTunnel` operations has a
non-negative refcount, and `tryDisposeTunnel` — the single place the
underlying tunnel is disposed — disposes only when the record handed to it
has refcount exactly 0 (given it is non-negative). -/
theorem refcount_invariant (provider : Provider) (iswin : Bool) (ops : List TOp)
    (h : String) (hm : List (Nat × TunnelRecord)) (p : Nat) (r : TunnelRecord)
    (hh : jget (runOps provider iswin ops initState).tunnels h = some hm)
    (hp : jget hm p = some r) :
    0 ≤ r.refcount ∧
    (∀ (s : TunnelState) (host : String) (port : Nat) (rec : TunnelRecord),
      0 ≤ rec.refcount → (tryDisposeTunnel s host port rec).disposed ≠ s.disposed →
      rec.refcount = 0) := by
  constructor
  · have := recOK_runOps provider iswin ops initState recOK_initState h hm p r hh hp
    omega
  · intro s host port rec h0 hne
    by_contra hne0
    have hgt : ¬rec.refcount ≤ 0 := by omega
    have heq : tryDisposeTunnel s host port rec = s := by
      unfold tryDisposeTunnel
      rw [if_neg hgt]
    exact hne (by rw [heq])

/-- A provider that always yields `sampleTunnel`. -/
def sampleProvider : Provider := fun _ => some sampleTunnel

/-- Witness for C3: one `openTunnel` from the initial state stores a record
with refcount 1 ≥ 0. -/
theorem refcount_invariant_witness :
    (0 : Int) ≤ (({ refcount := 1, value := { pid := 0, result := some sampleTunnel } } :
        TunnelRecord)).refcount ∧
    (∀ (s : TunnelState) (host : String) (port : Nat) (rec : TunnelRecord),
      0 ≤ rec.refcount → (tryDisposeTunnel s host port rec).disposed ≠ s.disposed →
      rec.refcount = 0) :=
  refcount_invariant sampleProvider false
    [TOp.openT true (some "localhost") 8080 none false false] "localhost"
    [(8080, { refcount := 1, value := { pid := 0, result := some sampleTunnel } })] 8080
    { refcount := 1, value := { pid := 0, result := some sampleTunnel } }
    (by decide) (by decide)

end Tunnel

namespace Tunnel

/-- A URI as far as the tunnel service consults it (tunnel.ts:78): its scheme
and its authority, the authority kept as a character list. -/
structure Uri where
  scheme : String
  authority : List Char
deriving DecidableEq, Repr

/-- `LOCALHOST_ADDRESSES` (tunnel.ts:92). -/
def LOCALHOST_ADDRESSES : List String := ["localhost", "127.0.0.1", "0:0:0:0:0:0:0:1", "::1"]

/-- `isLocalhost` (tunnel.ts:93-95): membership in `LOCALHOST_ADDRESSES`. -/
def isLocalhost (host : String) : Bool := LOCALHOST_ADDRESSES.contains host

/-- The `host:` part of the anchored regex in
`extractLocalHostUriMetaDataForPortMapping`: the authority must start with the
host followed by `:`; the remainder is returned. -/
def stripHostColon (p s : List Char) : Option (List Char) :=
  if (p ++ [':']).isPrefixOf s then some (s.drop (p.length + 1)) else none

/-- Numeric value of a digit string (the regex's `+localhostMatch[2]`). -/
def digitsToNat (s : List Char) : Nat := s.foldl (fun a c => 10 * a + (c.toNat - 48)) 0

/-- One alternative of the regex `^(host):(\x5cd+)$`: the authority is the host,
a colon, and one or more digits running to the end. -/
def matchHostColonPort (p s : List Char) : Option (List Char × Nat) :=
  match stripHostColon p s with
  | none => none
  | some rest =>
    if rest ≠ [] ∧ rest.all Char.isDigit = true then some (p, digitsToNat rest) else none

/-- `extractLocalHostUriMetaDataForPortMapping` (tunnel.ts:78-90): `undefined`
unless the scheme is http/https and the authority matches
`^(localhost|127.0.0.1|0.0.0.0):(\x5cd+)$`. -/
def extractLocalHostUriMetaDataForPortMapping (uri : Uri) : Option (List Char × Nat) :=
  if uri.scheme ≠ "http" ∧ uri.scheme ≠ "https" then none
  else
    match matchHostColonPort "localhost".data uri.authority with
    | some r => some r
    | none =>
      match matchHostColonPort "127.0.0.1".data uri.authority with
      | some r => some r
      | none => matchHostColonPort "0.0.0.0".data uri.authority

/-- `canTunnel` (tunnel.ts:301-303). -/
def canTunnel (uri : Uri) : Bool := (extractLocalHostUriMetaDataForPortMapping uri).isSome

theorem matchHostColonPort_some {p s : List Char} {r : List Char × Nat}
    (h : matchHostColonPort p s = some r) :
    ∃ rest, rest ≠ [] ∧ rest.all Char.isDigit = true ∧ s = p ++ ':' :: rest := by
  unfold matchHostColonPort stripHostColon at h
  by_cases hp : (p ++ [':']).isPrefixOf s = true
  · rw [if_pos hp] at h
    dsimp only at h
    by_cases hc : s.drop (p.length + 1) ≠ [] ∧ (s.drop (p.length + 1)).all Char.isDigit = true
    · refine ⟨s.drop (p.length + 1), hc.1, hc.2, ?_⟩
      have hpre := List.isPrefixOf_iff_prefix.mp hp
      have := List.prefix_iff_eq_append.mp hpre
      calc s = (p ++ [':']) ++ List.drop (p ++ [':']).length s := by rw [this]
        _ = p ++ ':' :: List.drop (p.length + 1) s := by simp
    · rw [if_neg hc] at h
      cases h
  · rw [if_neg hp] at h
    cases h

theorem matchHostColonPort_append (p rest : List Char) (hne : rest ≠ [])
    (hdig : rest.all Char.isDigit = true) :
    matchHostColonPort p (p ++ ':' :: rest) = some (p, digitsToNat rest) := by
  unfold matchHostColonPort stripHostColon
  have hcons : p ++ ':' :: rest = (p ++ [':']) ++ rest := by simp
  have hpre : (p ++ [':']).isPrefixOf (p ++ ':' :: rest) = true := by
    rw [List.isPrefixOf_iff_prefix, hcons]
    exact ⟨rest, rfl⟩
  rw [if_pos hpre]
  have hdrop : (p ++ ':' :: rest).drop (p.length + 1) = rest := by
    rw [hcons, show p.length + 1 = (p ++ [':']).length by simp, List.drop_left]
  rw [hdrop]
  simp [hne, hdig]

/-- C10: `canTunnel` accepts exactly the http/https URIs whose authority is
`localhost`, `127.0.0.1` or `0.0.0.0` followed by a colon and a nonempty run
of digits; `::1` is in `LOCALHOST_ADDRESSES` yet such an authority is not
tunnelable. -/
theorem canTunnel_localhost_only (uri : Uri) :
    (canTunnel uri = true ↔
      ((uri.scheme = "http" ∨ uri.scheme = "https") ∧
        ∃ hst rest : List Char,
          (hst = "localhost".data ∨ hst = "127.0.0.1".data ∨ hst = "0.0.0.0".data) ∧
          rest ≠ [] ∧ rest.all Char.isDigit = true ∧
          uri.authority = hst ++ ':' :: rest)) ∧
    isLocalhost "::1" = true ∧
    canTunnel { scheme := "http", authority := "::1:8080".data } = false := by
  refine ⟨?_, by decide, by decide⟩
  constructor
  · intro hcan
    unfold canTunnel extractLocalHostUriMetaDataForPortMapping at hcan
    by_cases hsch : uri.scheme ≠ "http" ∧ uri.scheme ≠ "https"
    · rw [if_pos hsch] at hcan
      simp at hcan
    · rw [if_neg hsch] at hcan
      have hor : uri.scheme = "http" ∨ uri.scheme = "https" := by tauto
      refine ⟨hor, ?_⟩
      cases h1 : matchHostColonPort "localhost".data uri.authority with
      | some r =>
        obtain ⟨rest, hne, hdig, heq⟩ := matchHostColonPort_some h1
        exact ⟨_, rest, Or.inl rfl, hne, hdig, heq⟩
      | none =>
        rw [h1] at hcan
        cases h2 : matchHostColonPort "127.0.0.1".data uri.authority with
        | some r =>
          obtain ⟨rest, hne, hdig, heq⟩ := matchHostColonPort_some h2
          exact ⟨_, rest, Or.inr (Or.inl rfl), hne, hdig, heq⟩
        | none =>
          rw [h2] at hcan
          cases h3 : matchHostColonPort "0.0.0.0".data uri.authority with
          | some r =>
            obtain ⟨rest, hne, hdig, heq⟩ := matchHostColonPort_some h3
            exact ⟨_, rest, Or.inr (Or.inr rfl), hne, hdig, heq⟩
          | none =>
            rw [h3] at hcan
            simp at hcan
  · rintro ⟨hor, hst, rest, hh, hne, hdig, heq⟩
    unfold canTunnel extractLocalHostUriMetaDataForPortMapping
    have hsch : ¬(uri.scheme ≠ "http" ∧ uri.scheme ≠ "https") := by
      rcases hor with h | h <;> simp [h]
    rw [if_neg hsch]
    rcases hh with rfl | rfl | rfl
    · rw [heq, matchHostColonPort_append _ rest hne hdig]
      rfl
    · have hfail1 : matchHostColonPort "localhost".data ("127.0.0.1".data ++ ':' :: rest) = none := by
        simp [matchHostColonPort, stripHostColon, List.isPrefixOf,
          show "localhost".data = ['l','o','c','a','l','h','o','s','t'] from rfl,
          show "127.0.0.1".data = ['1','2','7','.','0','.','0','.','1'] from rfl]
      rw [heq, hfail1, matchHostColonPort_append _ rest hne hdig]
      rfl
    · have hfail1 : matchHostColonPort "localhost".data ("0.0.0.0".data ++ ':' :: rest) = none := by
        simp [matchHostColonPort, stripHostColon, List.isPrefixOf,
          show "localhost".data = ['l','o','c','a','l','h','o','s','t'] from rfl,
          show "0.0.0.0".data = ['0','.','0','.','0','.','0'] from rfl]
      have hfail2 : matchHostColonPort "127.0.0.1".data ("0.0.0.0".data ++ ':' :: rest) = none := by
        simp [matchHostColonPort, stripHostColon, List.isPrefixOf,
          show "127.0.0.1".data = ['1','2','7','.','0','.','0','.','1'] from rfl,
          show "0.0.0.0".data = ['0','.','0','.','0','.','0'] from rfl]
      rw [heq, hfail1, hfail2, matchHostColonPort_append _ rest hne hdig]
      rfl

end Tunnel

namespace Terminal

open JsMap

/-- `TerminalIdentifier = number | string` (extHost.protocol): a renderer
numeric id or an extension-host temporary string id. -/
inductive TerminalIdentifier
  | num (id : Nat)
  | str (id : String)
deriving DecidableEq, Repr

/-- The observable state of `MainThreadTerminalService`: the string-to-numeric
id map, the terminal service's instances (by id), the active instance, panel
visibility, the terminal-process-proxy map (by id), and the effects performed
(texts sent, instances disposed, proxy emissions, logged errors). -/
structure TermState where
  extHostTerminalIds : List (String × Nat)
  instances : List Nat
  activeInstance : Option Nat
  panelVisible : Bool
  panelFocused : Bool
  sentTexts : List (Nat × String × Bool)
  disposedTerminals : List Nat
  terminalProcessProxies : List Nat
  emittedData : List (Nat × String)
  emittedTitles : List (Nat × String)
  resolvedConfigs : List Nat
  loggedErrors : List String
deriving DecidableEq, Repr

/-- A fresh `MainThreadTerminalService` with no terminals. -/
def initTermState : TermState :=
  { extHostTerminalIds := [], instances := [], activeInstance := none,
    panelVisible := false, panelFocused := false, sentTexts := [],
    disposedTerminals := [], terminalProcessProxies := [], emittedData := [],
    emittedTitles := [], resolvedConfigs := [], loggedErrors := [] }

/-- `_getTerminalId` (mainThreadTerminalService.ts:106-111): a number is
returned as is; a string is looked up in `_extHostTerminalIds`. -/
def getTerminalId (s : TermState) (id : TerminalIdentifier) : Option Nat :=
  match id with
  | TerminalIdentifier.num n => some n
  | TerminalIdentifier.str u => jget s.extHostTerminalIds u

/-- `ITerminalService.getInstanceFromId`: the instance with that id, if any. -/
def getInstanceFromId (s : TermState) (n : Nat) : Option Nat :=
  if s.instances.contains n then some n else none

/-- `_getTerminalInstance` (mainThreadTerminalService.ts:113-119). -/
def getTerminalInstance (s : TermState) (id : TerminalIdentifier) : Option Nat :=
  match getTerminalId s id with
  | some rendererId => getInstanceFromId s rendererId
  | none => none

/-- `$sendText` (mainThreadTerminalService.ts:163-168). -/
def sendTextOp (s : TermState) (id : TerminalIdentifier) (text : String)
    (addNewLine : Bool) : TermState :=
  match getTerminalInstance s id with
  | some inst => { s with sentTexts := s.sentTexts ++ [(inst, text, addNewLine)] }
  | none => s

/-- `$dispose` (mainThreadTerminalService.ts:156-161): dispose the instance
when it resolves. -/
def disposeOp (s : TermState) (id : TerminalIdentifier) : TermState :=
  match getTerminalInstance s id with
  | some inst => { s with disposedTerminals := s.disposedTerminals ++ [inst] }
  | none => s

/-- `$show` (mainThreadTerminalService.ts:140-146): make the instance active
and show the panel, focusing it unless `preserveFocus`. -/
def showOp (s : TermState) (id : TerminalIdentifier) (preserveFocus : Bool) : TermState :=
  match getTerminalInstance s id with
  | some inst =>
    { s with activeInstance := some inst, panelVisible := true, panelFocused := !preserveFocus }
  | none => s

/-- `$hide` (mainThreadTerminalService.ts:148-154): hide the panel only when
the active instance's id equals the resolved renderer id. -/
def hideOp (s : TermState) (id : TerminalIdentifier) : TermState :=
  match s.activeInstance, getTerminalId s id with
  | some act, some rendererId =>
    if act = rendererId then { s with panelVisible := false } else s
  | _, _ => s

/-- `$sendProcessData` (mainThreadTerminalService.ts:317-322): emit on the
proxy if one is mapped, otherwise do nothing (no log). -/
def sendProcessDataOp (s : TermState) (terminalId : Nat) (data : String) : TermState :=
  if s.terminalProcessProxies.contains terminalId then
    { s with emittedData := s.emittedData ++ [(terminalId, data)] }
  else s

/-- `$sendProcessTitle` (mainThreadTerminalService.ts:310-315): same direct
map access as `$sendProcessData`. -/
def sendProcessTitleOp (s : TermState) (terminalId : Nat) (title : String) : TermState :=
  if s.terminalProcessProxies.contains terminalId then
    { s with emittedTitles := s.emittedTitles ++ [(terminalId, title)] }
  else s

/-- `_getTerminalProcess` (mainThreadTerminalService.ts:401-408): missing
proxy logs `Unknown terminal: id` and yields nothing. -/
def getTerminalProcess (s : TermState) (terminalId : Nat) : Option Nat × TermState :=
  if s.terminalProcessProxies.contains terminalId then (some terminalId, s)
  else (none, { s with loggedErrors := s.loggedErrors ++ ["Unknown terminal: " ++ toString terminalId] })

/-- `$sendResolvedLaunchConfig` (mainThreadTerminalService.ts:360-365): only
when the instance exists does it resolve the proxy through
`_getTerminalProcess` (logging on a missing proxy). -/
def sendResolvedLaunchConfigOp (s : TermState) (terminalId : Nat) : TermState :=
  match getInstanceFromId s terminalId with
  | some _ =>
    match getTerminalProcess s terminalId with
    | (some pid, s1) => { s1 with resolvedConfigs := s1.resolvedConfigs ++ [pid] }
    | (none, s1) => s1
  | none => s

/-- The renderer-side consistency of the terminal service: an active instance
is one of the instances. -/
def activeOK (s : TermState) : Bool :=
  match s.activeInstance with
  | some a => s.instances.contains a
  | none => true

end Terminal

namespace Terminal

open JsMap

/-- C8 counterexample: with no proxy registered for terminal 1,
`$sendProcessData` is a silent no-op — the state is unchanged and no
`Unknown terminal` error is logged — refuting the claim that every
process-directed operation on an unknown terminal logs one. -/
theorem sendProcessData_logs_nothing :
    sendProcessDataOp initTermState 1 "x" = initTermState ∧
    (sendProcessDataOp initTermState 1 "x").loggedErrors = [] := by
  decide

/-- C8 (amended): an identifier that does not resolve to a known terminal
makes `$sendText`, `$dispose`, `$show` and `$hide` no-ops; a numeric
terminalId with no proxy entry makes the direct-map `$sendProcess*`
operations silent no-ops (nothing logged), and only the operations resolving
the proxy through `_getTerminalProcess` — such as `$sendResolvedLaunchConfig`
when the instance exists — log `Unknown terminal` and change nothing else. -/
theorem terminal_missing_id_spec (s : TermState) (id : TerminalIdentifier)
    (text : String) (nl pf : Bool) (tid : Nat)
    (hmiss : getTerminalInstance s id = none)
    (hact : activeOK s = true)
    (hproxy : s.terminalProcessProxies.contains tid = false) :
    sendTextOp s id text nl = s ∧
    disposeOp s id = s ∧
    showOp s id pf = s ∧
    hideOp s id = s ∧
    sendProcessDataOp s tid text = s ∧
    sendProcessTitleOp s tid text = s ∧
    (sendProcessDataOp s tid text).loggedErrors = s.loggedErrors ∧
    ((getInstanceFromId s tid).isSome = true →
      sendResolvedLaunchConfigOp s tid =
        { s with loggedErrors := s.loggedErrors ++ ["Unknown terminal: " ++ toString tid] }) := by
  have hmem : ¬ tid ∈ s.terminalProcessProxies := by simpa using hproxy
  refine ⟨?_, ?_, ?_, ?_, ?_, ?_, ?_, ?_⟩
  · simp [sendTextOp, hmiss]
  · simp [disposeOp, hmiss]
  · simp [showOp, hmiss]
  · cases hai : s.activeInstance with
    | none => simp [hideOp, hai]
    | some act =>
      cases hti : getTerminalId s id with
      | none => simp [hideOp, hai, hti]
      | some rendererId =>
        have hcon : s.instances.contains rendererId = false := by
          unfold getTerminalInstance at hmiss
          rw [hti] at hmiss
          unfold getInstanceFromId at hmiss
          by_cases hc : s.instances.contains rendererId = true
          · simp [hc] at hmiss
            exact absurd (by simpa using hc) hmiss
          · simpa using hc
        have hacti : s.instances.contains act = true := by
          unfold activeOK at hact
          rwa [hai] at hact
        have hne : act ≠ rendererId := by
          intro he
          rw [he, hcon] at hacti
          cases hacti
        simp [hideOp, hai, hti, hne]
  · simp [sendProcessDataOp, hmem]
  · simp [sendProcessTitleOp, hmem]
  · simp [sendProcessDataOp, hmem]
  · intro hinst
    unfold sendResolvedLaunchConfigOp
    cases hi : getInstanceFromId s tid with
    | none =>
      rw [hi] at hinst
      cases hinst
    | some n =>
      unfold getTerminalProcess
      rw [hproxy]
      simp

/-- A terminal-service state with one terminal (id 5), active, and no
process proxies. -/
def sampleTermState : TermState :=
  { initTermState with instances := [5], activeInstance := some 5 }

/-- Witness for C8 at concrete inputs: an unknown string id is a no-op for
`$sendText`, and `$sendResolvedLaunchConfig` on the existing instance 5 with
no proxy logs `Unknown terminal: 5`. -/
theorem terminal_missing_id_spec_witness :
    sendTextOp sampleTermState (TerminalIdentifier.str "u1") "echo hi" true = sampleTermState ∧
    sendResolvedLaunchConfigOp sampleTermState 5 =
      { sampleTermState with
          loggedErrors := sampleTermState.loggedErrors ++ ["Unknown terminal: " ++ toString 5] } :=
  ⟨(terminal_missing_id_spec sampleTermState (TerminalIdentifier.str "u1") "echo hi" true false 5
      (by decide) (by decide) (by decide)).1,
   (terminal_missing_id_spec sampleTermState (TerminalIdentifier.str "u1") "echo hi" true false 5
      (by decide) (by decide) (by decide)).2.2.2.2.2.2.2 (by decide)⟩

end Terminal

namespace Terminal

open JsMap

/-- Modelled from the spec: `TerminalDataBufferer` is imported from
`vs/workbench/contrib/terminal/common/terminalDataBuffering`, which is not
among the excerpted sources — only its use in `TerminalDataEventTracker`
(mainThreadTerminalService.ts:427-447) is.  Per the spec it "buffers
per-terminal data events before flushing to reduce message volume",
collapsing rapid successive writes into fewer forwarded events without
reordering: a data event appends its payload to the terminal's buffer, and a
flush forwards the buffered payloads for that terminal, concatenated, as one
event and clears the buffer.  Payload characters are kept as `List Char`.
`buffers` maps a terminal id to its pending payloads; `forwarded` is what has
been sent to the extension host, in order. -/
structure BufferState where
  buffers : List (Nat × List (List Char))
  forwarded : List (Nat × List Char)
deriving DecidableEq, Repr

/-- The bufferer before any event. -/
def initBufferState : BufferState := { buffers := [], forwarded := [] }

/-- A data event for a buffered terminal: append to its pending payloads
(creating the buffer on first data). -/
def bufferData (s : BufferState) (id : Nat) (data : List Char) : BufferState :=
  match jget s.buffers id with
  | some chunks => { s with buffers := jset s.buffers id (chunks ++ [data]) }
  | none => { s with buffers := jset s.buffers id [data] }

/-- A flush for a terminal: forward the pending payloads, concatenated, as
one event, and drop the buffer. -/
def flushBuffer (s : BufferState) (id : Nat) : BufferState :=
  match jget s.buffers id with
  | none => s
  | some chunks =>
    { s with buffers := jdelete s.buffers id,
             forwarded := s.forwarded ++ [(id, chunks.join)] }

/-- The events the bufferer reacts to. -/
inductive BufOp
  | data (id : Nat) (d : List Char)
  | flush (id : Nat)
deriving DecidableEq, Repr

def stepBuf (s : BufferState) : BufOp → BufferState
  | BufOp.data id d => bufferData s id d
  | BufOp.flush id => flushBuffer s id

def runBuf (ops : List BufOp) (s : BufferState) : BufferState :=
  ops.foldl stepBuf s

/-- The payloads of the data events for one terminal, in emission order. -/
def dataFor (ops : List BufOp) (id : Nat) : List (List Char) :=
  ops.filterMap (fun op => match op with
    | BufOp.data i d => if i = id then some d else none
    | BufOp.flush _ => none)

/-- The payloads forwarded to the extension host for one terminal, in order. -/
def forwardedFor (s : BufferState) (id : Nat) : List (List Char) :=
  s.forwarded.filterMap (fun p => if p.1 = id then some p.2 else none)

/-- The pending payloads for one terminal. -/
def bufferFor (s : BufferState) (id : Nat) : List (List Char) :=
  (jget s.buffers id).getD []

/-- The buffering invariant for one terminal: forwarded then pending is
exactly the input stream, the message count never exceeds the input count,
and a stored buffer is never empty. -/
def bufInv (s : BufferState) (id : Nat) (inputs : List (List Char)) : Prop :=
  (forwardedFor s id).join ++ (bufferFor s id).join = inputs.join ∧
  (forwardedFor s id).length + (bufferFor s id).length ≤ inputs.length ∧
  (∀ chunks, jget s.buffers id = some chunks → chunks ≠ [])

theorem bufInv_data_self (s : BufferState) (id : Nat) (d : List Char)
    (inputs : List (List Char)) (h : bufInv s id inputs) :
    bufInv (bufferData s id d) id (inputs ++ [d]) := by
  obtain ⟨h1, h2, h3⟩ := h
  unfold forwardedFor bufferFor at h1 h2
  unfold bufferData
  cases hb : jget s.buffers id with
  | some chunks =>
    rw [hb] at h1 h2
    simp only [Option.getD_some] at h1 h2
    refine ⟨?_, ?_, ?_⟩
    · simp only [forwardedFor, bufferFor, jget_jset_self, Option.getD_some]
      simp [List.join_append, ← h1]
    · simp only [forwardedFor, bufferFor, jget_jset_self, Option.getD_some]
      simp only [List.length_append, List.length_singleton]
      omega
    · intro chunks' hc
      rw [jget_jset_self] at hc
      cases hc
      simp
  | none =>
    rw [hb] at h1 h2
    simp only [Option.getD_none, List.join_nil, List.append_nil, List.length_nil,
      Nat.add_zero] at h1 h2
    refine ⟨?_, ?_, ?_⟩
    · simp only [forwardedFor, bufferFor, jget_jset_self, Option.getD_some]
      simp [← h1]
    · simp only [forwardedFor, bufferFor, jget_jset_self, Option.getD_some]
      simp only [List.length_append, List.length_singleton]
      omega
    · intro chunks' hc
      rw [jget_jset_self] at hc
      cases hc
      simp

theorem bufInv_data_other (s : BufferState) (id j : Nat) (d : List Char)
    (inputs : List (List Char)) (hne : j ≠ id) (h : bufInv s id inputs) :
    bufInv (bufferData s j d) id inputs := by
  obtain ⟨h1, h2, h3⟩ := h
  have hne' : id ≠ j := fun he => hne he.symm
  unfold bufferData
  cases hb : jget s.buffers j with
  | some chunks =>
    exact ⟨by simpa only [bufInv, forwardedFor, bufferFor, jget_jset_ne _ _ hne'] using h1,
      by simpa only [bufInv, forwardedFor, bufferFor, jget_jset_ne _ _ hne'] using h2,
      fun chunks' hc => h3 chunks' (by rwa [jget_jset_ne _ _ hne'] at hc)⟩
  | none =>
    exact ⟨by simpa only [bufInv, forwardedFor, bufferFor, jget_jset_ne _ _ hne'] using h1,
      by simpa only [bufInv, forwardedFor, bufferFor, jget_jset_ne _ _ hne'] using h2,
      fun chunks' hc => h3 chunks' (by rwa [jget_jset_ne _ _ hne'] at hc)⟩

theorem bufInv_flush (s : BufferState) (id j : Nat) (inputs : List (List Char))
    (h : bufInv s id inputs) : bufInv (flushBuffer s j) id inputs := by
  obtain ⟨h1, h2, h3⟩ := h
  unfold flushBuffer
  cases hb : jget s.buffers j with
  | none => exact ⟨h1, h2, h3⟩
  | some chunks =>
    by_cases hj : j = id
    · subst hj
      have hnonempty : chunks ≠ [] := h3 chunks hb
      have hlen : 1 ≤ chunks.length := List.length_pos.mpr hnonempty
      unfold forwardedFor bufferFor at h1 h2
      rw [hb] at h1 h2
      simp only [Option.getD_some] at h1 h2
      refine ⟨?_, ?_, ?_⟩
      · simp only [forwardedFor, bufferFor, jget_jdelete_self, Option.getD_none]
        simp [List.filterMap_append, List.join_append, ← h1]
      · simp only [forwardedFor, bufferFor, jget_jdelete_self, Option.getD_none]
        rw [List.filterMap_append]
        have hone : List.filterMap (fun p => if p.1 = j then some p.2 else none)
            [(j, chunks.join)] = [chunks.join] := by simp
        rw [hone]
        simp only [List.length_append, List.length_cons, List.length_nil]
        omega
      · intro chunks' hc
        rw [jget_jdelete_self] at hc
        cases hc
    · have hne' : id ≠ j := fun he => hj he.symm
      have hforw : List.filterMap (fun p => if p.1 = id then some p.2 else none)
          (s.forwarded ++ [(j, chunks.join)]) =
          List.filterMap (fun p => if p.1 = id then some p.2 else none) s.forwarded := by
        rw [List.filterMap_append]
        simp [hj]
      refine ⟨?_, ?_, ?_⟩
      · simp only [forwardedFor, bufferFor, jget_jdelete_ne _ hne', hforw]
        exact h1
      · simp only [forwardedFor, bufferFor, jget_jdelete_ne _ hne', hforw]
        exact h2
      · intro chunks' hc
        rw [jget_jdelete_ne _ hne'] at hc
        exact h3 chunks' hc

end Terminal

namespace Terminal

open JsMap

theorem bufInv_runBuf (ops : List BufOp) (id : Nat) (s : BufferState)
    (inputs : List (List Char)) (h : bufInv s id inputs) :
    bufInv (runBuf ops s) id (inputs ++ dataFor ops id) := by
  induction ops generalizing s inputs with
  | nil => simpa [runBuf, dataFor] using h
  | cons op rest ih =>
    cases op with
    | data j d =>
      by_cases hj : j = id
      · subst hj
        have hstep := ih (bufferData s j d) (inputs ++ [d]) (bufInv_data_self s j d inputs h)
        have hdf : dataFor (BufOp.data j d :: rest) j = d :: dataFor rest j := by
          simp [dataFor]
        rw [hdf]
        simpa using hstep
      · have hstep := ih (bufferData s j d) inputs (bufInv_data_other s id j d inputs hj h)
        have hdf : dataFor (BufOp.data j d :: rest) id = dataFor rest id := by
          simp [dataFor, hj]
        rw [hdf]
        exact hstep
    | flush j =>
      have hstep := ih (flushBuffer s j) inputs (bufInv_flush s id j inputs h)
      have hdf : dataFor (BufOp.flush j :: rest) id = dataFor rest id := by
        simp [dataFor]
      rw [hdf]
      exact hstep

/-- C9: for any sequence of terminal data events (interleaved with flushes)
finished by a flush, the buffering layer forwards, per terminal, the same
characters in the same order — the concatenation of the forwarded payloads
equals the concatenation of that terminal's data payloads — while never
forwarding more messages than there were data events. -/
theorem buffering_preserves_content (ops : List BufOp) (id : Nat) :
    (forwardedFor (runBuf (ops ++ [BufOp.flush id]) initBufferState) id).join =
      (dataFor (ops ++ [BufOp.flush id]) id).join ∧
    (forwardedFor (runBuf (ops ++ [BufOp.flush id]) initBufferState) id).length ≤
      (dataFor (ops ++ [BufOp.flush id]) id).length := by
  have h0 : bufInv initBufferState id [] := by
    refine ⟨rfl, ?_, ?_⟩
    · simp [forwardedFor, bufferFor, initBufferState]
    · intro chunks hc
      simp [initBufferState, jget] at hc
  have hrun := bufInv_runBuf (ops ++ [BufOp.flush id]) id initBufferState [] h0
  have hclear : jget (runBuf (ops ++ [BufOp.flush id]) initBufferState).buffers id = none := by
    have hsplit : runBuf (ops ++ [BufOp.flush id]) initBufferState =
        flushBuffer (runBuf ops initBufferState) id := by
      simp [runBuf, List.foldl_append, stepBuf]
    rw [hsplit]
    unfold flushBuffer
    cases hb : jget (runBuf ops initBufferState).buffers id with
    | none => exact hb
    | some chunks => simp [jget_jdelete_self]
  obtain ⟨h1, h2, _⟩ := hrun
  have hbf : bufferFor (runBuf (ops ++ [BufOp.flush id]) initBufferState) id = [] := by
    simp [bufferFor, hclear]
  rw [hbf] at h1 h2
  simp only [List.join_nil, List.append_nil, List.length_nil, Nat.add_zero,
    List.nil_append] at h1 h2
  exact ⟨h1, h2⟩

end Terminal
